import Mathlib

/-!
Shallow embedding of the spearmint reconciliation engine
(src/config.rs, src/sync.rs, src/api/mod.rs, src/api/dev_products.rs,
src/api/gamepasses.rs).

File-system reads and the SHA-256 digest are modelled by an oracle
`hashFile : String → Option String` standing for `hash_file` in
src/sync.rs (None = file unreadable).  The HTTP transport is modelled
by oracles: at the reconciler level a `Client` whose four methods
return `Except`, mirroring the `Result`-returning methods of
`api::Client`; at the transport level a status oracle `Nat → Nat`
giving the HTTP status of the n-th attempt of one retry loop.
Rust's `HashMap` iteration sequence is represented as an association
list; `u64` values are `Nat` (no arithmetic is performed on them, so
no overflow is possible).
-/

namespace Spearmint

/-! ## Data model (src/config.rs) -/

inductive ProductType where
  | devProduct
  | gamepass
deriving DecidableEq, Repr

structure Product where
  product_type : ProductType
  name : String
  price : Nat
  description : Option String
  image : Option String
  product_id : Option Nat
  offsale : Bool
deriving DecidableEq, Repr

/-! ## Mapping (src/sync.rs lines 13-22): key → MappingEntry -/

structure MappingEntry where
  roblox_id : Nat
  name : Option String
  price : Option Nat
  description : Option String
  image_hash : Option String
deriving DecidableEq, Repr

abbrev Mapping : Type := List (String × MappingEntry)

def Mapping.get : Mapping → String → Option MappingEntry
  | [], _ => none
  | (k', e) :: rest, k => if k' = k then some e else Mapping.get rest k

def Mapping.insert : Mapping → String → MappingEntry → Mapping
  | [], k, e => [(k, e)]
  | (k', e') :: rest, k, e =>
      if k' = k then (k, e) :: rest else (k', e') :: Mapping.insert rest k e

/-! ## Request types (src/api/dev_products.rs, src/api/gamepasses.rs) -/

structure CreateDevProductRequest where
  name : String
  price : Nat
  description : Option String
  icon_path : Option String
deriving DecidableEq, Repr

structure UpdateDevProductRequest where
  name : Option String
  price : Option Nat
  description : Option String
  icon_path : Option String
deriving DecidableEq, Repr

structure UpdateGamepassRequest where
  name : Option String
  price : Option Nat
  description : Option String
  icon_path : Option String
deriving DecidableEq, Repr

/-- The remote gateway: one oracle per `api::Client` method.  Creates
return the fresh remote identifier (`product_id` / `game_pass_id` of
the parsed response); failures carry the error message. -/
structure Client where
  create_dev_product : Nat → CreateDevProductRequest → Except String Nat
  update_dev_product : Nat → Nat → UpdateDevProductRequest → Except String Unit
  create_gamepass :
    Nat → String → Nat → Option String → Option String → Except String Nat
  update_gamepass : Nat → Nat → UpdateGamepassRequest → Except String Unit

/-- Trace of gateway invocations made by the reconciler, with the
exact request passed to each. -/
inductive RemoteCall where
  | createDevProduct (universe_id : Nat) (req : CreateDevProductRequest)
  | updateDevProduct (universe_id : Nat) (id : Nat) (req : UpdateDevProductRequest)
  | createGamepass (universe_id : Nat) (name : String) (price : Nat)
      (description : Option String) (icon_path : Option String)
  | updateGamepass (universe_id : Nat) (id : Nat) (req : UpdateGamepassRequest)
deriving DecidableEq, Repr

/-! ## Retry loop (src/api/dev_products.rs lines 93-123; the same loop
appears verbatim in `update_dev_product`, `create_gamepass` and
`update_gamepass`).  `status n` is the HTTP status of the attempt made
when the local variable `retries` holds `n`.  `gas` stands for
`MAX_RETRIES - retries`, so `gas ≠ 0` is Rust's `retries < MAX_RETRIES`;
when `gas = 0` a 429 falls through to the generic `!is_success` bail,
exactly as in the source.  The trace records the outcome, the number of
attempts (HTTP sends) and each backoff sleep in milliseconds: the source
sleeps `BASE_RETRY_DELAY_MS * (1 << retries)` with `retries` already
incremented, hence `2 ^ (retries + 1)` here. -/

/-- Maximum number of retries on rate limit (src/api/mod.rs line 11). -/
def MAX_RETRIES : Nat := 5

/-- Base delay between retries, ms (src/api/mod.rs line 13). -/
def BASE_RETRY_DELAY_MS : Nat := 500

/-- `reqwest::StatusCode::is_success`: 200 ≤ s < 300. -/
def is_success_status (s : Nat) : Bool := decide (200 ≤ s) && decide (s < 300)

instance {α β : Type} [DecidableEq α] [DecidableEq β] : DecidableEq (Except α β) :=
  fun a b =>
    match a, b with
    | Except.ok x, Except.ok y =>
        if h : x = y then isTrue (by rw [h]) else isFalse (by simp [h])
    | Except.error x, Except.error y =>
        if h : x = y then isTrue (by rw [h]) else isFalse (by simp [h])
    | Except.ok _, Except.error _ => isFalse (by simp)
    | Except.error _, Except.ok _ => isFalse (by simp)

structure RetryTrace where
  result : Except Nat Unit
  attempts : Nat
  sleeps : List Nat
deriving DecidableEq, Repr

def retry_loop_aux (status : Nat → Nat) (retries : Nat) : Nat → RetryTrace
  | 0 =>
      let s := status retries
      if is_success_status s then ⟨Except.ok (), 1, []⟩
      else ⟨Except.error s, 1, []⟩
  | gas + 1 =>
      let s := status retries
      if s = 429 then
        let rest := retry_loop_aux status (retries + 1) gas
        ⟨rest.result, rest.attempts + 1,
          BASE_RETRY_DELAY_MS * 2 ^ (retries + 1) :: rest.sleeps⟩
      else if is_success_status s then ⟨Except.ok (), 1, []⟩
      else ⟨Except.error s, 1, []⟩

def retry_loop (status : Nat → Nat) : RetryTrace :=
  retry_loop_aux status 0 MAX_RETRIES

/-! ## Change detection (src/sync.rs lines 108-130) -/

/-- `image_hash` (src/sync.rs line 114): digest of the product's asset,
`none` when there is no asset or it is unreadable. -/
def image_hash (hashFile : String → Option String) (product : Product) :
    Option String :=
  product.image.bind hashFile

/-- `config_changed` (src/sync.rs line 118). -/
def config_changed (hashFile : String → Option String) (product : Product)
    (entry : MappingEntry) : Bool :=
  entry.name != some product.name
    || entry.price != some product.price
    || entry.description != product.description
    || image_hash hashFile product != entry.image_hash

/-- `update_mapping_entry` (src/sync.rs line 125): mutation of the entry
rendered as a functional update; `roblox_id` is untouched. -/
def update_mapping_entry (hashFile : String → Option String)
    (entry : MappingEntry) (product : Product) : MappingEntry :=
  { entry with
    name := some product.name
    price := some product.price
    description := product.description
    image_hash := image_hash hashFile product }

/-! ## Per-resource reconciliation (src/sync.rs lines 132-294) -/

/-- Result of one `sync_dev_product` / `sync_gamepass` call: the returned
`Result<String>`, the mapping after the call, and the gateway calls made. -/
structure SyncStep where
  result : Except String String
  mapping : Mapping
  calls : List RemoteCall
deriving Repr

/-- `sync_dev_product` (src/sync.rs lines 132-213). -/
def sync_dev_product (client : Client) (hashFile : String → Option String)
    (universe_id : Nat) (key : String) (product : Product)
    (existing_id : Option Nat) (mapping : Mapping) : SyncStep :=
  match existing_id with
  | some id =>
      let skip : Bool :=
        match mapping.get key with
        | some entry => !config_changed hashFile product entry
        | none => false
      if skip then ⟨Except.ok "skipped", mapping, []⟩
      else
        let icon_path : Option String :=
          match product.image with
          | some image =>
              let new_hash := hashFile image
              let old_hash := (mapping.get key).bind (fun e => e.image_hash)
              if new_hash != old_hash then some image else none
          | none => none
        let req : UpdateDevProductRequest :=
          ⟨some product.name, some product.price, product.description, icon_path⟩
        match client.update_dev_product universe_id id req with
        | Except.error e =>
            ⟨Except.error e, mapping, [RemoteCall.updateDevProduct universe_id id req]⟩
        | Except.ok _ =>
            let entry : MappingEntry :=
              match mapping.get key with
              | some e => e
              | none => ⟨id, none, none, none, none⟩
            ⟨Except.ok "updated",
              mapping.insert key (update_mapping_entry hashFile entry product),
              [RemoteCall.updateDevProduct universe_id id req]⟩
  | none =>
      let req : CreateDevProductRequest :=
        ⟨product.name, product.price, product.description, product.image⟩
      match client.create_dev_product universe_id req with
      | Except.error e =>
          ⟨Except.error e, mapping, [RemoteCall.createDevProduct universe_id req]⟩
      | Except.ok product_id =>
          ⟨Except.ok "created",
            mapping.insert key
              ⟨product_id, some product.name, some product.price,
                product.description, image_hash hashFile product⟩,
            [RemoteCall.createDevProduct universe_id req]⟩

/-- `sync_gamepass` (src/sync.rs lines 215-294). -/
def sync_gamepass (client : Client) (hashFile : String → Option String)
    (universe_id : Nat) (key : String) (product : Product)
    (existing_id : Option Nat) (mapping : Mapping) : SyncStep :=
  match existing_id with
  | some id =>
      let skip : Bool :=
        match mapping.get key with
        | some entry => !config_changed hashFile product entry
        | none => false
      if skip then ⟨Except.ok "skipped", mapping, []⟩
      else
        let icon_path : Option String :=
          match product.image with
          | some image =>
              let new_hash := hashFile image
              let old_hash := (mapping.get key).bind (fun e => e.image_hash)
              if new_hash != old_hash then some image else none
          | none => none
        let req : UpdateGamepassRequest :=
          ⟨some product.name, some product.price, product.description, icon_path⟩
        match client.update_gamepass universe_id id req with
        | Except.error e =>
            ⟨Except.error e, mapping, [RemoteCall.updateGamepass universe_id id req]⟩
        | Except.ok _ =>
            let entry : MappingEntry :=
              match mapping.get key with
              | some e => e
              | none => ⟨id, none, none, none, none⟩
            ⟨Except.ok "updated",
              mapping.insert key (update_mapping_entry hashFile entry product),
              [RemoteCall.updateGamepass universe_id id req]⟩
  | none =>
      match client.create_gamepass universe_id product.name product.price
          product.description product.image with
      | Except.error e =>
          ⟨Except.error e, mapping,
            [RemoteCall.createGamepass universe_id product.name product.price
              product.description product.image]⟩
      | Except.ok game_pass_id =>
          ⟨Except.ok "created",
            mapping.insert key
              ⟨game_pass_id, some product.name, some product.price,
                product.description, image_hash hashFile product⟩,
            [RemoteCall.createGamepass universe_id product.name product.price
              product.description product.image]⟩

/-- `sync_product` (src/sync.rs lines 87-106). -/
def sync_product (client : Client) (hashFile : String → Option String)
    (universe_id : Nat) (key : String) (product : Product)
    (mapping : Mapping) : SyncStep :=
  let existing_id : Option Nat :=
    match product.product_id with
    | some id => some id
    | none => (mapping.get key).map (fun m => m.roblox_id)
  match product.product_type with
  | ProductType.devProduct =>
      sync_dev_product client hashFile universe_id key product existing_id mapping
  | ProductType.gamepass =>
      sync_gamepass client hashFile universe_id key product existing_id mapping

/-! ## Whole-run reconciliation (src/sync.rs lines 56-85) -/

structure SyncResult where
  action : String
  error : Option String
deriving DecidableEq, Repr

/-- The `match result` in the loop body of `sync_all_products`. -/
def mk_sync_result : Except String String → SyncResult
  | Except.ok action => ⟨action, none⟩
  | Except.error e => ⟨"error", some e⟩

/-- Output of `sync_all_products`: the returned results, the final
mapping, the concatenated gateway-call trace, and the per-resource
progress lines printed by the loop, as (key, action) in print order. -/
structure RunOutput where
  results : List SyncResult
  mapping : Mapping
  calls : List RemoteCall
  log : List (String × String)
deriving Repr

/-- `sync_all_products` (src/sync.rs lines 56-85), with the iteration
sequence of `config.products` passed as the list `products`. -/
def sync_all_products (client : Client) (hashFile : String → Option String)
    (universe_id : Nat) : List (String × Product) → Mapping → RunOutput
  | [], mapping => ⟨[], mapping, [], []⟩
  | (key, product) :: rest, mapping =>
      let step := sync_product client hashFile universe_id key product mapping
      let r := mk_sync_result step.result
      let restOut := sync_all_products client hashFile universe_id rest step.mapping
      ⟨r :: restOut.results, restOut.mapping, step.calls ++ restOut.calls,
        (key, r.action) :: restOut.log⟩

/-! ## Concrete gateway fixtures (used by witnesses and counterexamples) -/

/-- A gateway on which every call succeeds; creates return id 1001 / 2002. -/
def clientOk : Client :=
  ⟨fun _ _ => Except.ok 1001,
   fun _ _ _ => Except.ok (),
   fun _ _ _ _ _ => Except.ok 2002,
   fun _ _ _ => Except.ok ()⟩

/-- A gateway on which every call fails with a fixed message. -/
def clientFail : Client :=
  ⟨fun _ _ => Except.error "HTTP 400",
   fun _ _ _ => Except.error "HTTP 400",
   fun _ _ _ _ _ => Except.error "HTTP 400",
   fun _ _ _ => Except.error "HTTP 400"⟩

/-- A file system with no readable assets. -/
def noHash : String → Option String := fun _ => none

def pDev : Product := ⟨ProductType.devProduct, "a", 10, none, none, none, false⟩

/-- The remote identifier an update call addresses (`none` for creates). -/
def RemoteCall.update_target : RemoteCall → Option Nat
  | RemoteCall.updateDevProduct _ id _ => some id
  | RemoteCall.updateGamepass _ id _ => some id
  | _ => none

/-! ## Additional concrete fixtures -/

def pGp : Product := ⟨ProductType.gamepass, "g", 50, none, none, none, false⟩

/-- Dev product with an explicit remote identifier 7. -/
def pExp : Product := ⟨ProductType.devProduct, "a", 10, none, none, some 7, false⟩

/-- Mapping whose entry for "k" holds the stale identifier 5 and an old
price, so a sync is not skipped. -/
def mStale : Mapping := [("k", ⟨5, some "a", some 9, none, none⟩)]

/-- Gateway that fails gamepass creation but succeeds everywhere else. -/
def clientMixed : Client :=
  ⟨fun _ _ => Except.ok 1001,
   fun _ _ _ => Except.ok (),
   fun _ _ _ _ _ => Except.error "HTTP 400",
   fun _ _ _ => Except.ok ()⟩

def hashA : String → Option String := fun _ => some "h1"

def hashB : String → Option String := fun _ => some "h2"

/-- Dev product with an asset, price 10. -/
def pImg : Product :=
  ⟨ProductType.devProduct, "a", 10, none, some "img.png", none, false⟩

/-- Dev product with an asset, price 9. -/
def pImg9 : Product :=
  ⟨ProductType.devProduct, "a", 9, none, some "img.png", none, false⟩

def eImg : MappingEntry := ⟨5, some "a", some 9, none, some "h1"⟩

def mImg : Mapping := [("k", eImg)]

/-! ## Mapping lemmas -/

theorem Mapping.get_insert (m : Mapping) (k k0 : String) (e : MappingEntry) :
    (m.insert k e).get k0 = if k = k0 then some e else m.get k0 := by
  induction m with
  | nil => by_cases h : k = k0 <;> simp [Mapping.insert, Mapping.get, h]
  | cons hd rest ih =>
      obtain ⟨k', e'⟩ := hd
      by_cases h1 : k' = k
      · subst h1
        by_cases h2 : k' = k0 <;> simp [Mapping.insert, Mapping.get, h2]
      · by_cases h2 : k' = k0
        · subst h2
          have hne : ¬k = k' := fun hh => h1 hh.symm
          simp [Mapping.insert, Mapping.get, h1, hne]
        · simp [Mapping.insert, Mapping.get, h1, h2, ih]

theorem config_changed_eq_false_iff (h : String → Option String) (p : Product)
    (e : MappingEntry) :
    config_changed h p e = false ↔
      e.name = some p.name ∧ e.price = some p.price ∧
      e.description = p.description ∧ image_hash h p = e.image_hash := by
  simp [config_changed, and_assoc]

/-- Exhaustive description of the four ways `sync_product` can end:
skipped, failed, updated, created. -/
theorem sync_product_cases (c : Client) (h : String → Option String) (u : Nat)
    (k : String) (p : Product) (m : Mapping) :
    (∃ e0, m.get k = some e0 ∧ config_changed h p e0 = false ∧
        sync_product c h u k p m = ⟨Except.ok "skipped", m, []⟩) ∨
    (∃ err call, sync_product c h u k p m = ⟨Except.error err, m, [call]⟩) ∨
    (∃ id entry0 call,
        (p.product_id = some id ∨
          (p.product_id = none ∧ ∃ e0, m.get k = some e0 ∧ e0.roblox_id = id)) ∧
        (m.get k = some entry0 ∨
          (m.get k = none ∧ entry0 = ⟨id, none, none, none, none⟩)) ∧
        sync_product c h u k p m =
          ⟨Except.ok "updated", m.insert k (update_mapping_entry h entry0 p),
            [call]⟩) ∨
    (∃ pid call,
        m.get k = none ∧ p.product_id = none ∧
        sync_product c h u k p m =
          ⟨Except.ok "created",
            m.insert k ⟨pid, some p.name, some p.price, p.description,
              image_hash h p⟩,
            [call]⟩) := by
  cases hpt : p.product_type
  all_goals cases hpid : p.product_id with
  | some id =>
      cases hm : m.get k with
      | some e0 =>
          cases hch : config_changed h p e0 with
          | false =>
              refine Or.inl ⟨e0, rfl, hch, ?_⟩
              simp [sync_product, sync_dev_product, sync_gamepass, hpt, hpid, hm,
                hch]
          | true =>
              simp only [sync_product, sync_dev_product, sync_gamepass, hpt, hpid,
                hm, hch, Bool.not_true, Bool.false_eq_true, ite_false,
                Option.map_some']
              split
              all_goals rename_i v heq
              any_goals exact Or.inr (Or.inl ⟨v, _, rfl⟩)
              any_goals exact Or.inr (Or.inr (Or.inl
                ⟨id, e0, _, Or.inl rfl, Or.inl rfl, rfl⟩))
      | none =>
          simp only [sync_product, sync_dev_product, sync_gamepass, hpt, hpid, hm,
            Bool.not_true, Bool.false_eq_true, ite_false, Option.map_some']
          split
          all_goals rename_i v heq
          any_goals exact Or.inr (Or.inl ⟨v, _, rfl⟩)
          any_goals exact Or.inr (Or.inr (Or.inl
            ⟨id, ⟨id, none, none, none, none⟩, _, Or.inl rfl,
              Or.inr ⟨by first | rfl | trivial, rfl⟩, rfl⟩))
  | none =>
      cases hm : m.get k with
      | some e0 =>
          cases hch : config_changed h p e0 with
          | false =>
              refine Or.inl ⟨e0, rfl, hch, ?_⟩
              simp [sync_product, sync_dev_product, sync_gamepass, hpt, hpid, hm,
                hch]
          | true =>
              simp only [sync_product, sync_dev_product, sync_gamepass, hpt, hpid,
                hm, hch, Bool.not_true, Bool.false_eq_true, ite_false,
                Option.map_some']
              split
              all_goals rename_i v heq
              any_goals exact Or.inr (Or.inl ⟨v, _, rfl⟩)
              any_goals exact Or.inr (Or.inr (Or.inl
                ⟨e0.roblox_id, e0, _,
                  Or.inr ⟨by first | rfl | trivial, e0, rfl, rfl⟩,
                  Or.inl rfl, rfl⟩))
      | none =>
          simp only [sync_product, sync_dev_product, sync_gamepass, hpt, hpid, hm,
            Bool.not_true, Bool.false_eq_true, ite_false, Option.map_none']
          split
          all_goals rename_i v heq
          any_goals exact Or.inr (Or.inl ⟨v, _, rfl⟩)
          any_goals exact Or.inr (Or.inr (Or.inr ⟨v, _,
            by first | rfl | trivial, by first | rfl | trivial, rfl⟩))

/-! ## Consequences of `sync_product_cases` -/

/-- A failed per-resource sync leaves the mapping untouched. -/
theorem sync_product_error_mapping (c : Client) (h : String → Option String)
    (u : Nat) (k : String) (p : Product) (m : Mapping) (err : String)
    (he : (sync_product c h u k p m).result = Except.error err) :
    (sync_product c h u k p m).mapping = m := by
  rcases sync_product_cases c h u k p m with
    ⟨e0, hm0, hch, hs⟩ | ⟨err2, call, hs⟩ | ⟨id, entry0, call, hsrc, hent, hs⟩ |
    ⟨pid, call, hk, hpid, hs⟩ <;> rw [hs] at he ⊢ <;> simp_all

/-- A per-resource sync never touches mapping keys other than its own. -/
theorem sync_product_get_frame (c : Client) (h : String → Option String)
    (u : Nat) (k : String) (p : Product) (m : Mapping) (k0 : String)
    (hne : k0 ≠ k) :
    (sync_product c h u k p m).mapping.get k0 = m.get k0 := by
  have hne2 : ¬k = k0 := fun hh => hne hh.symm
  rcases sync_product_cases c h u k p m with
    ⟨e0, hm0, hch, hs⟩ | ⟨err2, call, hs⟩ | ⟨id, entry0, call, hsrc, hent, hs⟩ |
    ⟨pid, call, hk, hpid, hs⟩ <;> rw [hs] <;>
    simp [Mapping.get_insert, hne2]

/-- A stored remote identifier is never overwritten by a per-resource sync. -/
theorem sync_product_roblox_id_preserved (c : Client)
    (h : String → Option String) (u : Nat) (k : String) (p : Product)
    (m : Mapping) (k0 : String) (e0 : MappingEntry)
    (hm : m.get k0 = some e0) :
    ((sync_product c h u k p m).mapping.get k0).map (fun e => e.roblox_id) =
      some e0.roblox_id := by
  rcases sync_product_cases c h u k p m with
    ⟨e1, hm0, hch, hs⟩ | ⟨err2, call, hs⟩ | ⟨id, entry0, call, hsrc, hent, hs⟩ |
    ⟨pid, call, hk, hpid, hs⟩
  · rw [hs]
    simp [hm]
  · rw [hs]
    simp [hm]
  · rw [hs]
    simp only [Mapping.get_insert]
    by_cases hk : k = k0
    · subst hk
      rcases hent with hent | ⟨hnone, _⟩
      · rw [hm] at hent
        injection hent with hent
        subst hent
        simp [update_mapping_entry]
      · rw [hm] at hnone
        exact Option.noConfusion hnone
    · simp [hk, hm]
  · rw [hs]
    simp only [Mapping.get_insert]
    by_cases hkk : k = k0
    · subst hkk
      rw [hm] at hk
      exact Option.noConfusion hk
    · simp [hkk, hm]

/-- The `created` outcome occurs only for a key with no record and a
product with no explicit identifier. -/
theorem sync_product_created_fresh (c : Client) (h : String → Option String)
    (u : Nat) (k : String) (p : Product) (m : Mapping)
    (hres : (sync_product c h u k p m).result = Except.ok "created") :
    m.get k = none ∧ p.product_id = none := by
  rcases sync_product_cases c h u k p m with
    ⟨e1, hm0, hch, hs⟩ | ⟨err2, call, hs⟩ | ⟨id, entry0, call, hsrc, hent, hs⟩ |
    ⟨pid, call, hk, hpid, hs⟩ <;> rw [hs] at hres
  · simp at hres
  · simp at hres
  · simp at hres
  · exact ⟨hk, hpid⟩

/-- After a successful per-resource sync, the entry stored at the key holds
exactly the declared name, price, description and asset digest. -/
theorem sync_product_success_snapshot (c : Client) (h : String → Option String)
    (u : Nat) (k : String) (p : Product) (m : Mapping) (a : String)
    (hres : (sync_product c h u k p m).result = Except.ok a) :
    ∃ e, (sync_product c h u k p m).mapping.get k = some e ∧
      e.name = some p.name ∧ e.price = some p.price ∧
      e.description = p.description ∧ e.image_hash = image_hash h p := by
  rcases sync_product_cases c h u k p m with
    ⟨e1, hm0, hch, hs⟩ | ⟨err2, call, hs⟩ | ⟨id, entry0, call, hsrc, hent, hs⟩ |
    ⟨pid, call, hk, hpid, hs⟩ <;> rw [hs]
  · obtain ⟨h1, h2, h3, h4⟩ := (config_changed_eq_false_iff h p e1).mp hch
    exact ⟨e1, hm0, h1, h2, h3, h4.symm⟩
  · rw [hs] at hres
    exact absurd hres (by simp)
  · exact ⟨update_mapping_entry h entry0 p, by simp [Mapping.get_insert],
      by simp [update_mapping_entry], by simp [update_mapping_entry],
      by simp [update_mapping_entry], by simp [update_mapping_entry]⟩
  · exact ⟨⟨pid, some p.name, some p.price, p.description, image_hash h p⟩,
      by simp [Mapping.get_insert], rfl, rfl, rfl, rfl⟩

/-- A resource whose record already matches the declaration is skipped:
no remote call, mapping unchanged. -/
theorem sync_product_skips_synced (c : Client) (h : String → Option String)
    (u : Nat) (k : String) (p : Product) (m : Mapping) (e0 : MappingEntry)
    (hm : m.get k = some e0)
    (hname : e0.name = some p.name) (hprice : e0.price = some p.price)
    (hdesc : e0.description = p.description)
    (hhash : e0.image_hash = image_hash h p) :
    sync_product c h u k p m = ⟨Except.ok "skipped", m, []⟩ := by
  have hch : config_changed h p e0 = false :=
    (config_changed_eq_false_iff h p e0).mpr ⟨hname, hprice, hdesc, hhash.symm⟩
  cases hpt : p.product_type <;> cases hpid : p.product_id <;>
    simp [sync_product, sync_dev_product, sync_gamepass, hpt, hpid, hm, hch]

/-! ## Run-level lemmas about `sync_all_products` -/

/-- One result per declared resource. -/
theorem sync_all_products_length (c : Client) (h : String → Option String)
    (u : Nat) (ps : List (String × Product)) (m : Mapping) :
    (sync_all_products c h u ps m).results.length = ps.length := by
  induction ps generalizing m with
  | nil => rfl
  | cons hd rest ih =>
      obtain ⟨k1, p1⟩ := hd
      simp [sync_all_products, ih]

/-- The i-th reported result is the converted outcome of syncing the i-th
declared resource (under the mapping accumulated so far). -/
theorem sync_all_products_get (c : Client) (h : String → Option String)
    (u : Nat) (ps : List (String × Product)) (m : Mapping) (i : Nat)
    (k : String) (p : Product) (hip : ps.get? i = some (k, p)) :
    ∃ mi, (sync_all_products c h u ps m).results.get? i =
      some (mk_sync_result (sync_product c h u k p mi).result) := by
  induction ps generalizing m i with
  | nil => simp at hip
  | cons hd rest ih =>
      obtain ⟨k1, p1⟩ := hd
      cases i with
      | zero =>
          simp only [List.get?_cons_zero, Option.some.injEq] at hip
          obtain ⟨hk, hp⟩ := Prod.mk.injEq .. ▸ hip
          refine ⟨m, ?_⟩
          simp [sync_all_products]
          rw [← hk, ← hp]
      | succ j =>
          simp only [List.get?_cons_succ] at hip
          obtain ⟨mi, hmi⟩ :=
            ih (sync_product c h u k1 p1 m).mapping j hip
          exact ⟨mi, by simpa [sync_all_products] using hmi⟩

/-- The printed progress lines visit exactly the declared keys, in the
iteration order of the configuration, whatever the gateway does. -/
theorem sync_all_products_log_keys (c : Client) (h : String → Option String)
    (u : Nat) (ps : List (String × Product)) (m : Mapping) :
    (sync_all_products c h u ps m).log.map Prod.fst = ps.map Prod.fst := by
  induction ps generalizing m with
  | nil => rfl
  | cons hd rest ih =>
      obtain ⟨k1, p1⟩ := hd
      simp [sync_all_products, ih]

/-- A whole run never touches mapping keys outside the declared key set. -/
theorem sync_all_products_get_frame (c : Client) (h : String → Option String)
    (u : Nat) (ps : List (String × Product)) (m : Mapping) (k0 : String)
    (hk : k0 ∉ ps.map Prod.fst) :
    (sync_all_products c h u ps m).mapping.get k0 = m.get k0 := by
  induction ps generalizing m with
  | nil => rfl
  | cons hd rest ih =>
      obtain ⟨k1, p1⟩ := hd
      simp only [List.map_cons, List.mem_cons] at hk
      push_neg at hk
      have hstep := sync_product_get_frame c h u k1 p1 m k0 hk.1
      simp only [sync_all_products]
      rw [ih _ hk.2, hstep]

/-- A whole run never overwrites a stored remote identifier. -/
theorem sync_all_products_roblox_id_preserved (c : Client)
    (h : String → Option String) (u : Nat) (ps : List (String × Product))
    (m : Mapping) (k0 : String) (e0 : MappingEntry)
    (hm : m.get k0 = some e0) :
    ((sync_all_products c h u ps m).mapping.get k0).map
      (fun e => e.roblox_id) = some e0.roblox_id := by
  induction ps generalizing m e0 with
  | nil => simp [sync_all_products, hm]
  | cons hd rest ih =>
      obtain ⟨k1, p1⟩ := hd
      have hstep := sync_product_roblox_id_preserved c h u k1 p1 m k0 e0 hm
      obtain ⟨e1, he1, hid1⟩ := Option.map_eq_some'.mp hstep
      simp only [sync_all_products]
      rw [ih _ _ he1, hid1]

/-- After a fully successful run over pairwise-distinct keys, every declared
resource's entry holds exactly its declared values. -/
theorem sync_all_products_success_synced (c : Client)
    (h : String → Option String) (u : Nat) (ps : List (String × Product))
    (m : Mapping) (hnodup : (ps.map Prod.fst).Nodup)
    (hok : ∀ r ∈ (sync_all_products c h u ps m).results, r.error = none) :
    ∀ kp ∈ ps, ∃ e,
      (sync_all_products c h u ps m).mapping.get kp.1 = some e ∧
      e.name = some kp.2.name ∧ e.price = some kp.2.price ∧
      e.description = kp.2.description ∧ e.image_hash = image_hash h kp.2 := by
  induction ps generalizing m with
  | nil => simp
  | cons hd rest ih =>
      obtain ⟨k1, p1⟩ := hd
      simp only [List.map_cons, List.nodup_cons] at hnodup
      have hok1 : (mk_sync_result (sync_product c h u k1 p1 m).result).error
          = none := by
        apply hok
        simp [sync_all_products]
      have hstep_ok : ∃ a, (sync_product c h u k1 p1 m).result =
          Except.ok a := by
        cases hres : (sync_product c h u k1 p1 m).result with
        | ok a => exact ⟨a, rfl⟩
        | error e =>
            rw [hres] at hok1
            simp [mk_sync_result] at hok1
      obtain ⟨a, ha⟩ := hstep_ok
      have hrest_ok : ∀ r ∈ (sync_all_products c h u rest
          (sync_product c h u k1 p1 m).mapping).results, r.error = none := by
        intro r hr
        apply hok
        simp [sync_all_products]
        exact Or.inr hr
      intro kp hkp
      rcases List.mem_cons.mp hkp with heq | hmem
      · subst heq
        obtain ⟨e, he, h1, h2, h3, h4⟩ :=
          sync_product_success_snapshot c h u k1 p1 m a ha
        refine ⟨e, ?_, h1, h2, h3, h4⟩
        have hframe := sync_all_products_get_frame c h u rest
          (sync_product c h u k1 p1 m).mapping k1 hnodup.1
        simp only [sync_all_products]
        rw [hframe, he]
      · obtain ⟨e, he, h1, h2, h3, h4⟩ := ih _ hnodup.2 hrest_ok kp hmem
        refine ⟨e, ?_, h1, h2, h3, h4⟩
        simpa [sync_all_products] using he

/-- Over a mapping in which every declared resource is already synced, a run
skips everything: no remote calls, mapping unchanged. -/
theorem sync_all_products_all_synced (c : Client) (h : String → Option String)
    (u : Nat) (ps : List (String × Product)) (m : Mapping)
    (hsync : ∀ kp ∈ ps, ∃ e, m.get kp.1 = some e ∧
      e.name = some kp.2.name ∧ e.price = some kp.2.price ∧
      e.description = kp.2.description ∧ e.image_hash = image_hash h kp.2) :
    sync_all_products c h u ps m =
      ⟨ps.map (fun _ => ⟨"skipped", none⟩), m, [],
        ps.map (fun kp => (kp.1, "skipped"))⟩ := by
  induction ps generalizing m with
  | nil => rfl
  | cons hd rest ih =>
      obtain ⟨k1, p1⟩ := hd
      obtain ⟨e, hm, h1, h2, h3, h4⟩ := hsync (k1, p1) (by simp)
      have hstep := sync_product_skips_synced c h u k1 p1 m e hm h1 h2 h3 h4
      have hrest := ih m (fun kp hkp => hsync kp (by simp [hkp]))
      simp [sync_all_products, hstep, hrest, mk_sync_result]

/-! ## Explicit remote identifier -/

/-- With an explicit remote identifier on the product, every gateway call of
the per-resource sync is an update addressed to that identifier; after a
successful outcome the stored identifier is the pre-existing record's one if
a record existed, and the explicit one otherwise. -/
theorem sync_product_explicit_id (c : Client) (h : String → Option String)
    (u : Nat) (k : String) (p : Product) (m : Mapping) (eid : Nat)
    (hpid : p.product_id = some eid) :
    (∀ call ∈ (sync_product c h u k p m).calls,
      call.update_target = some eid) ∧
    (∀ a, (sync_product c h u k p m).result = Except.ok a →
      ∃ e, (sync_product c h u k p m).mapping.get k = some e ∧
        e.roblox_id = (match m.get k with
          | some e0 => e0.roblox_id
          | none => eid)) := by
  cases hpt : p.product_type
  all_goals cases hm : m.get k with
  | some e0 =>
      cases hch : config_changed h p e0 with
      | false =>
          constructor
          · intro call hc
            simp [sync_product, sync_dev_product, sync_gamepass, hpt, hpid, hm,
              hch] at hc
          · intro a ha
            exact ⟨e0, by simp [sync_product, sync_dev_product, sync_gamepass,
              hpt, hpid, hm, hch], rfl⟩
      | true =>
          simp only [sync_product, sync_dev_product, sync_gamepass, hpt, hpid,
            hm, hch, Bool.not_true, Bool.false_eq_true, ite_false,
            Option.map_some']
          split
          all_goals rename_i v heq
          all_goals constructor
          all_goals first
          | (intro call hc
             simp only [List.mem_singleton] at hc
             subst hc
             rfl)
          | (intro a ha
             first
             | exact Except.noConfusion ha
             | exact ⟨update_mapping_entry h e0 p, by simp [Mapping.get_insert],
                 by simp [update_mapping_entry]⟩)
  | none =>
      simp only [sync_product, sync_dev_product, sync_gamepass, hpt, hpid, hm,
        Bool.not_true, Bool.false_eq_true, ite_false, Option.map_some']
      split
      all_goals rename_i v heq
      all_goals constructor
      all_goals first
      | (intro call hc
         simp only [List.mem_singleton] at hc
         subst hc
         rfl)
      | (intro a ha
         first
         | exact Except.noConfusion ha
         | exact ⟨update_mapping_entry h ⟨eid, none, none, none, none⟩ p,
             by simp [Mapping.get_insert], by simp [update_mapping_entry]⟩)

/-! ## Change isolation on existing dev products -/

/-- A price-only change on an existing dev product issues one update whose
request re-sends name/price/description but carries no icon. -/
theorem sync_product_price_only (c : Client) (h : String → Option String)
    (u : Nat) (k : String) (p : Product) (m : Mapping) (e0 : MappingEntry)
    (hpt : p.product_type = ProductType.devProduct)
    (hm : m.get k = some e0)
    (hname : e0.name = some p.name)
    (hdesc : e0.description = p.description)
    (hhash : e0.image_hash = image_hash h p)
    (hprice : e0.price ≠ some p.price) :
    ∃ id, (sync_product c h u k p m).calls =
      [RemoteCall.updateDevProduct u id
        ⟨some p.name, some p.price, p.description, none⟩] := by
  have hch : config_changed h p e0 = true := by
    simp [config_changed, hprice]
  have hicon : ∀ img, p.image = some img → h img = e0.image_hash := by
    intro img him
    rw [hhash]
    simp [image_hash, him]
  cases hpid : p.product_id with
  | some id =>
      refine ⟨id, ?_⟩
      cases him : p.image with
      | none =>
          simp only [sync_product, sync_dev_product, hpt, hpid, hm, hch, him,
            Bool.not_true, Bool.false_eq_true, ite_false]
          split <;> rfl
      | some img =>
          have hb : (h img != e0.image_hash) = false := by
            simp [hicon img him]
          simp only [sync_product, sync_dev_product, hpt, hpid, hm, hch, him,
            Bool.not_true, Bool.false_eq_true, ite_false, Option.some_bind, hb]
          split <;> rfl
  | none =>
      refine ⟨e0.roblox_id, ?_⟩
      cases him : p.image with
      | none =>
          simp only [sync_product, sync_dev_product, hpt, hpid, hm, hch, him,
            Bool.not_true, Bool.false_eq_true, ite_false, Option.map_some']
          split <;> rfl
      | some img =>
          have hb : (h img != e0.image_hash) = false := by
            simp [hicon img him]
          simp only [sync_product, sync_dev_product, hpt, hpid, hm, hch, him,
            Bool.not_true, Bool.false_eq_true, ite_false, Option.map_some',
            Option.some_bind, hb]
          split <;> rfl

/-- An asset-only change on an existing dev product issues one update that
carries the asset, the other request fields matching the record's values. -/
theorem sync_product_asset_only (c : Client) (h : String → Option String)
    (u : Nat) (k : String) (p : Product) (m : Mapping) (e0 : MappingEntry)
    (img : String)
    (hpt : p.product_type = ProductType.devProduct)
    (hm : m.get k = some e0)
    (hname : e0.name = some p.name)
    (hprice : e0.price = some p.price)
    (hdesc : e0.description = p.description)
    (him : p.image = some img)
    (hchg : h img ≠ e0.image_hash) :
    (∃ id, (sync_product c h u k p m).calls =
      [RemoteCall.updateDevProduct u id
        ⟨some p.name, some p.price, p.description, some img⟩]) ∧
    some p.name = e0.name ∧ some p.price = e0.price ∧
    p.description = e0.description := by
  have hch : config_changed h p e0 = true := by
    have : image_hash h p ≠ e0.image_hash := by
      simpa [image_hash, him] using hchg
    simp [config_changed, this]
  have hb : (h img != e0.image_hash) = true := by
    simp [hchg]
  refine ⟨?_, hname.symm, hprice.symm, hdesc.symm⟩
  cases hpid : p.product_id with
  | some id =>
      refine ⟨id, ?_⟩
      simp only [sync_product, sync_dev_product, hpt, hpid, hm, hch, him,
        Bool.not_true, Bool.false_eq_true, ite_false, Option.some_bind, hb,
        ite_true]
      split <;> rfl
  | none =>
      refine ⟨e0.roblox_id, ?_⟩
      simp only [sync_product, sync_dev_product, hpt, hpid, hm, hch, him,
        Bool.not_true, Bool.false_eq_true, ite_false, Option.map_some',
        Option.some_bind, hb, ite_true]
      split <;> rfl

/-! ## Retry-loop lemmas -/

/-- Under permanent rate limiting, the loop makes one attempt per unit of
remaining retry budget plus the final one, then fails with status 429. -/
theorem retry_loop_aux_always_429 (status : Nat → Nat)
    (hall : ∀ n, status n = 429) :
    ∀ gas retries, (retry_loop_aux status retries gas).attempts = gas + 1 ∧
      (retry_loop_aux status retries gas).result = Except.error 429 := by
  intro gas
  induction gas with
  | zero =>
      intro retries
      simp [retry_loop_aux, hall retries, is_success_status]
  | succ g ih =>
      intro retries
      simp [retry_loop_aux, hall retries, (ih (retries + 1)).1,
        (ih (retries + 1)).2]

/-- Position n of the sleep trace, while the first n+1 attempts are all rate
limited and retries remain: the source's delay `BASE * 2 ^ (retries + 1)`
computed after incrementing `retries`. -/
theorem retry_loop_aux_sleeps_get (status : Nat → Nat) :
    ∀ (n retries gas : Nat), n < gas → (∀ i, i ≤ n → status (retries + i) = 429) →
    (retry_loop_aux status retries gas).sleeps.get? n =
      some (BASE_RETRY_DELAY_MS * 2 ^ (retries + n + 1)) := by
  intro n
  induction n with
  | zero =>
      intro retries gas hgas hall
      cases gas with
      | zero => exact absurd hgas (by omega)
      | succ g =>
          have h0 : status retries = 429 := by
            simpa using hall 0 (Nat.le_refl 0)
          simp [retry_loop_aux, h0]
  | succ j ih =>
      intro retries gas hgas hall
      cases gas with
      | zero => exact absurd hgas (by omega)
      | succ g =>
          have h0 : status retries = 429 := by
            simpa using hall 0 (by omega)
          have hrec := ih (retries + 1) g (by omega) (fun i hi => by
            have hh := hall (i + 1) (by omega)
            have harr : retries + (i + 1) = retries + 1 + i := by omega
            rwa [harr] at hh)
          have harr2 : retries + 1 + j + 1 = retries + (j + 1) + 1 := by omega
      
          rw [harr2] at hrec
          simp [retry_loop_aux, h0]
          simpa using hrec

/-! ## Offsale irrelevance -/

/-- `sync_product` never reads the `offsale` field. -/
theorem sync_product_offsale_irrelevant (c : Client)
    (h : String → Option String) (u : Nat) (k : String) (p : Product)
    (b : Bool) (m : Mapping) :
    sync_product c h u k
      ⟨p.product_type, p.name, p.price, p.description, p.image,
        p.product_id, b⟩ m =
    sync_product c h u k p m := by
  cases p
  rfl

/-! ## Claims -/

/-- C1, counterexample: a dev product with explicit remote identifier 7 and
a mapping entry holding stale identifier 5.  The sync succeeds (using 7 for
the remote call) but the mapping entry keeps 5: the mapping is NOT corrected
to the explicit identifier, contradicting the claim. -/
theorem C1_counterexample :
    pExp.product_id = some 7 ∧
    (sync_product clientOk noHash 1 "k" pExp mStale).result =
      Except.ok "updated" ∧
    ((sync_product clientOk noHash 1 "k" pExp mStale).mapping.get "k").map
      (fun e => e.roblox_id) = some 5 := by decide

/-- C1 (amended): with an explicit remote identifier, every remote call is
an update addressed to that identifier, even when the mapping holds a stale
identifier; after a successful sync, however, a pre-existing mapping entry
keeps its old stored identifier, and only when no entry existed does the
stored identifier equal the explicit one. -/
theorem C1_explicit_id_amended (c : Client) (h : String → Option String)
    (u : Nat) (k : String) (p : Product) (m : Mapping) (eid : Nat)
    (hpid : p.product_id = some eid) :
    (∀ call ∈ (sync_product c h u k p m).calls,
      call.update_target = some eid) ∧
    (∀ a, (sync_product c h u k p m).result = Except.ok a →
      ∃ e, (sync_product c h u k p m).mapping.get k = some e ∧
        e.roblox_id = (match m.get k with
          | some e0 => e0.roblox_id
          | none => eid)) :=
  sync_product_explicit_id c h u k p m eid hpid

/-- C1 witness: the amended statement at the concrete counterexample input. -/
theorem C1_witness :
    (∀ call ∈ (sync_product clientOk noHash 1 "k" pExp mStale).calls,
      call.update_target = some 7) ∧
    (∀ a, (sync_product clientOk noHash 1 "k" pExp mStale).result =
        Except.ok a →
      ∃ e, (sync_product clientOk noHash 1 "k" pExp mStale).mapping.get "k" =
          some e ∧
        e.roblox_id = (match mStale.get "k" with
          | some e0 => e0.roblox_id
          | none => 7)) :=
  C1_explicit_id_amended clientOk noHash 1 "k" pExp mStale 7 (by decide)

/-- C2: after a fully successful run over pairwise-distinct keys, a second
run over the same declared set and the produced mapping skips every
resource, makes no remote call, and leaves the mapping unchanged. -/
theorem C2_idempotent (c : Client) (h : String → Option String) (u : Nat)
    (ps : List (String × Product)) (m : Mapping)
    (hnodup : (ps.map Prod.fst).Nodup)
    (hok : ∀ r ∈ (sync_all_products c h u ps m).results, r.error = none) :
    (∀ r ∈ (sync_all_products c h u ps
        (sync_all_products c h u ps m).mapping).results,
      r.action = "skipped") ∧
    (sync_all_products c h u ps
      (sync_all_products c h u ps m).mapping).calls = [] ∧
    (sync_all_products c h u ps
      (sync_all_products c h u ps m).mapping).mapping =
      (sync_all_products c h u ps m).mapping := by
  have hsync := sync_all_products_success_synced c h u ps m hnodup hok
  have hrun2 := sync_all_products_all_synced c h u ps
    (sync_all_products c h u ps m).mapping hsync
  rw [hrun2]
  refine ⟨?_, rfl, rfl⟩
  intro r hr
  obtain ⟨kp, hkp, hre⟩ := List.mem_map.mp hr
  rw [← hre]

/-- C2 witness: a two-resource configuration, successful first run. -/
theorem C2_witness :
    (∀ r ∈ (sync_all_products clientOk noHash 1 [("a", pDev), ("g", pGp)]
        (sync_all_products clientOk noHash 1 [("a", pDev), ("g", pGp)]
          []).mapping).results,
      r.action = "skipped") ∧
    (sync_all_products clientOk noHash 1 [("a", pDev), ("g", pGp)]
      (sync_all_products clientOk noHash 1 [("a", pDev), ("g", pGp)]
        []).mapping).calls = [] ∧
    (sync_all_products clientOk noHash 1 [("a", pDev), ("g", pGp)]
      (sync_all_products clientOk noHash 1 [("a", pDev), ("g", pGp)]
        []).mapping).mapping =
      (sync_all_products clientOk noHash 1 [("a", pDev), ("g", pGp)]
        []).mapping :=
  C2_idempotent clientOk noHash 1 [("a", pDev), ("g", pGp)] [] (by decide)
    (by decide)

/-- C3: a failed remote mutation yields a failure outcome and leaves the
mapping — in particular the entry for the resource's key — exactly as it
was before the attempt. -/
theorem C3_failure_preserves_record (c : Client) (h : String → Option String)
    (u : Nat) (k : String) (p : Product) (m : Mapping) (err : String)
    (he : (sync_product c h u k p m).result = Except.error err) :
    (sync_product c h u k p m).mapping = m ∧
    (sync_product c h u k p m).mapping.get k = m.get k :=
  ⟨sync_product_error_mapping c h u k p m err he,
   by rw [sync_product_error_mapping c h u k p m err he]⟩

/-- C3 witness: a failing update attempt against a stale entry. -/
theorem C3_witness :
    (sync_product clientFail noHash 1 "k" pDev mStale).mapping = mStale ∧
    (sync_product clientFail noHash 1 "k" pDev mStale).mapping.get "k" =
      mStale.get "k" :=
  C3_failure_preserves_record clientFail noHash 1 "k" pDev mStale "HTTP 400"
    (by decide)

/-- A non-429 non-success status terminates the loop immediately. -/
theorem retry_loop_aux_immediate (status : Nat → Nat) (retries gas : Nat)
    (h1 : status retries ≠ 429)
    (h2 : is_success_status (status retries) = false) :
    (retry_loop_aux status retries gas).attempts = 1 ∧
    (retry_loop_aux status retries gas).result =
      Except.error (status retries) := by
  cases gas <;> simp [retry_loop_aux, h1, h2]

/-- C4: a permanently rate-limiting gateway is attempted exactly
MAX_RETRIES + 1 times and then the operation fails with the 429 status,
while any other failing status terminates after a single attempt with that
status, with no retry. -/
theorem C4_retry_bound :
    (∀ status : Nat → Nat, (∀ n, status n = 429) →
      (retry_loop status).attempts = MAX_RETRIES + 1 ∧
      (retry_loop status).result = Except.error 429) ∧
    (∀ status : Nat → Nat, status 0 ≠ 429 →
      is_success_status (status 0) = false →
      (retry_loop status).attempts = 1 ∧
      (retry_loop status).result = Except.error (status 0)) := by
  constructor
  · intro status hall
    have hh := retry_loop_aux_always_429 status hall MAX_RETRIES 0
    simpa [retry_loop, MAX_RETRIES] using hh
  · intro status h1 h2
    have hh := retry_loop_aux_immediate status 0 MAX_RETRIES h1 h2
    simpa [retry_loop] using hh

/-- C4 witness: concrete always-429 and always-400 gateways. -/
theorem C4_witness :
    (retry_loop (fun _ => 429)).attempts = MAX_RETRIES + 1 ∧
    (retry_loop (fun _ => 429)).result = Except.error 429 ∧
    (retry_loop (fun _ => 400)).attempts = 1 ∧
    (retry_loop (fun _ => 400)).result = Except.error 400 :=
  ⟨(C4_retry_bound.1 (fun _ => 429) (fun _ => rfl)).1,
   (C4_retry_bound.1 (fun _ => 429) (fun _ => rfl)).2,
   (C4_retry_bound.2 (fun _ => 400) (by decide) (by decide)).1,
   (C4_retry_bound.2 (fun _ => 400) (by decide) (by decide)).2⟩

/-- C5, counterexample: the first backoff sleep under rate limiting is
1000 ms, not BASE_RETRY_DELAY_MS * 2 ^ 0 = 500 ms as the claim states. -/
theorem C5_counterexample :
    (retry_loop (fun _ => 429)).sleeps.get? 0 = some 1000 ∧
    BASE_RETRY_DELAY_MS * 2 ^ 0 = 500 ∧ (1000 : Nat) ≠ 500 := by decide

/-- C5 (amended): on the n-th rate-limited attempt with n < MAX_RETRIES the
orchestrator sleeps BASE_RETRY_DELAY_MS * 2 ^ (n + 1) milliseconds (the
source increments the retry counter before computing the delay), so the
first backoff sleep is 1000 ms. -/
theorem C5_backoff_amended (status : Nat → Nat) (n : Nat)
    (hn : n < MAX_RETRIES) (hall : ∀ i, i ≤ n → status i = 429) :
    (retry_loop status).sleeps.get? n =
      some (BASE_RETRY_DELAY_MS * 2 ^ (n + 1)) := by
  have hh := retry_loop_aux_sleeps_get status n 0 MAX_RETRIES hn
    (fun i hi => by simpa using hall i hi)
  simpa [retry_loop] using hh

/-- C5 witness: the first sleep of an always-429 run is 500 * 2 ^ 1. -/
theorem C5_witness :
    0 < MAX_RETRIES ∧
    (retry_loop (fun _ => 429)).sleeps.get? 0 =
      some (BASE_RETRY_DELAY_MS * 2 ^ (0 + 1)) :=
  ⟨by decide, C5_backoff_amended (fun _ => 429) 0 (by decide)
    (fun i hi => rfl)⟩

/-- C6: on an existing dev product, a price-only difference triggers one
update whose request carries no icon, while an asset-only digest change
triggers one update carrying the asset, the other request fields equal to
the record's stored values. -/
theorem C6_change_isolation (c : Client) (h : String → Option String)
    (u : Nat) (k : String) (m : Mapping) :
    (∀ p e0, p.product_type = ProductType.devProduct →
      m.get k = some e0 → e0.name = some p.name →
      e0.description = p.description → e0.image_hash = image_hash h p →
      e0.price ≠ some p.price →
      ∃ id, (sync_product c h u k p m).calls =
        [RemoteCall.updateDevProduct u id
          ⟨some p.name, some p.price, p.description, none⟩]) ∧
    (∀ p e0 img, p.product_type = ProductType.devProduct →
      m.get k = some e0 → e0.name = some p.name → e0.price = some p.price →
      e0.description = p.description → p.image = some img →
      h img ≠ e0.image_hash →
      (∃ id, (sync_product c h u k p m).calls =
        [RemoteCall.updateDevProduct u id
          ⟨some p.name, some p.price, p.description, some img⟩]) ∧
      some p.name = e0.name ∧ some p.price = e0.price ∧
      p.description = e0.description) :=
  ⟨fun p e0 hpt hm hname hdesc hhash hprice =>
     sync_product_price_only c h u k p m e0 hpt hm hname hdesc hhash hprice,
   fun p e0 img hpt hm hname hprice hdesc him hchg =>
     sync_product_asset_only c h u k p m e0 img hpt hm hname hprice hdesc
       him hchg⟩

/-- C6 witness: price-only and asset-only changes on concrete products. -/
theorem C6_witness :
    (∃ id, (sync_product clientOk hashA 1 "k" pImg mImg).calls =
      [RemoteCall.updateDevProduct 1 id ⟨some "a", some 10, none, none⟩]) ∧
    (∃ id, (sync_product clientOk hashB 1 "k" pImg9 mImg).calls =
      [RemoteCall.updateDevProduct 1 id
        ⟨some "a", some 9, none, some "img.png"⟩]) := by
  constructor
  · exact (C6_change_isolation clientOk hashA 1 "k" mImg).1 pImg eImg rfl
      (by decide) (by decide) (by decide) (by decide) (by decide)
  · exact ((C6_change_isolation clientOk hashB 1 "k" mImg).2 pImg9 eImg
      "img.png" rfl (by decide) (by decide) (by decide) (by decide)
      (by decide) (by decide)).1

/-- C7: a run reports exactly one outcome per declared resource, and each
resource is processed to its own terminal outcome (failures of other
resources never abort the run). -/
theorem C7_failure_isolation (c : Client) (h : String → Option String)
    (u : Nat) (ps : List (String × Product)) (m : Mapping) :
    (sync_all_products c h u ps m).results.length = ps.length ∧
    ∀ i k p, ps.get? i = some (k, p) →
      ∃ mi, (sync_all_products c h u ps m).results.get? i =
        some (mk_sync_result (sync_product c h u k p mi).result) :=
  ⟨sync_all_products_length c h u ps m,
   fun i k p hip => sync_all_products_get c h u ps m i k p hip⟩

/-- C7 witness: three resources with the middle one's remote call failing;
the run still yields three outcomes and processes every resource. -/
theorem C7_witness :
    (sync_all_products clientMixed noHash 1
      [("a", pDev), ("b", pGp), ("c", pDev)] []).results.length = 3 ∧
    (∃ mi, (sync_all_products clientMixed noHash 1
        [("a", pDev), ("b", pGp), ("c", pDev)] []).results.get? 1 =
      some (mk_sync_result (sync_product clientMixed noHash 1 "b" pGp
        mi).result)) :=
  ⟨(C7_failure_isolation clientMixed noHash 1
      [("a", pDev), ("b", pGp), ("c", pDev)] []).1,
   (C7_failure_isolation clientMixed noHash 1
      [("a", pDev), ("b", pGp), ("c", pDev)] []).2 1 "b" pGp (by decide)⟩

/-- C8: a stored remote identifier is never overwritten, neither by one
per-resource sync nor by a whole run, and the created outcome occurs only
for a key with no record and no explicit identifier. -/
theorem C8_remote_id_stable (c : Client) (h : String → Option String)
    (u : Nat) (k : String) (p : Product) (m : Mapping)
    (ps : List (String × Product)) (k0 : String) (e0 : MappingEntry)
    (hm : m.get k0 = some e0) :
    (((sync_product c h u k p m).mapping.get k0).map
      (fun e => e.roblox_id) = some e0.roblox_id) ∧
    (((sync_all_products c h u ps m).mapping.get k0).map
      (fun e => e.roblox_id) = some e0.roblox_id) ∧
    ((sync_product c h u k p m).result = Except.ok "created" →
      m.get k = none ∧ p.product_id = none) :=
  ⟨sync_product_roblox_id_preserved c h u k p m k0 e0 hm,
   sync_all_products_roblox_id_preserved c h u ps m k0 e0 hm,
   fun hres => sync_product_created_fresh c h u k p m hres⟩

/-- C8 witness: a successful update against an entry with identifier 5. -/
theorem C8_witness :
    (((sync_product clientOk noHash 1 "k" pDev mStale).mapping.get "k").map
      (fun e => e.roblox_id) = some 5) ∧
    (((sync_all_products clientOk noHash 1 [("k", pDev)] mStale).mapping.get
      "k").map (fun e => e.roblox_id) = some 5) ∧
    ((sync_product clientOk noHash 1 "k" pDev mStale).result =
        Except.ok "created" →
      mStale.get "k" = none ∧ pDev.product_id = none) :=
  C8_remote_id_stable clientOk noHash 1 "k" pDev mStale [("k", pDev)] "k"
    ⟨5, some "a", some 9, none, none⟩ (by decide)

/-- C9: the per-resource progress lines visit the declared resources in the
configuration's iteration order, independently of the gateway, the file
system and the starting mapping: two executions over the same declared
sequence visit the resources in the same order. -/
theorem C9_deterministic_order (c1 c2 : Client)
    (o1 o2 : String → Option String) (u1 u2 : Nat)
    (ps : List (String × Product)) (m1 m2 : Mapping) :
    (sync_all_products c1 o1 u1 ps m1).log.map Prod.fst =
      (sync_all_products c2 o2 u2 ps m2).log.map Prod.fst := by
  rw [sync_all_products_log_keys, sync_all_products_log_keys]

/-- C10: the offsale flag of a declared product has no effect whatsoever on
a run: results, final mapping, remote calls (hence requests) and progress
log are identical when one product's offsale flag is flipped. -/
theorem C10_offsale_no_effect (c : Client) (h : String → Option String)
    (u : Nat) (ps1 ps2 : List (String × Product)) (key : String)
    (p : Product) (b : Bool) (m : Mapping) :
    sync_all_products c h u
      (ps1 ++ (key, ⟨p.product_type, p.name, p.price, p.description, p.image,
        p.product_id, b⟩) :: ps2) m =
    sync_all_products c h u (ps1 ++ (key, p) :: ps2) m := by
  induction ps1 generalizing m with
  | nil =>
      simp only [List.nil_append, sync_all_products,
        sync_product_offsale_irrelevant]
  | cons hd rest ih =>
      obtain ⟨k1, p1⟩ := hd
      simp only [List.cons_append, sync_all_products, List.append_eq]
      rw [ih]

end Spearmint
